import Mathlib

/-
Verification of the SproutCore property-binding engine
(src/foundation/binding.js) against its natural-language specification.

The JavaScript file is shallowly embedded below.  JavaScript values flowing
through bindings are modelled by the inductive type JS; bindings are records
mirroring the fields that binding.js reads and writes; the process-wide
state (the binding instances, the mutable transform arrays shared through
prototype inheritance, the observed objects, the observer registry and the
two pending-change sets) is a World record, and each method of SC.Binding
becomes a function on World.

External collaborators of binding.js that are not under src/ are modelled
from the specification and marked as such in their doc comments:
SC.Set (idempotent add, pop), SC.Observers (the observer registry),
SC.Object.tupleForPropertyPath (path resolution), setPathIfChanged
(write-if-changed), SC.isArray and the $type value taxonomy.

Two instrumentation fields are added to World so that theorems can speak
about observable behaviour: setCalls records every invocation of the
set-if-changed primitive (argument order and values), and applyLog records
every applyBindingValue call performed by the flush loop.  Neither field is
read by any embedded operation.
-/

/-- JavaScript values as used by binding.js: undefined, null, booleans,
numbers (the file only ever compares and stores them, so Int suffices),
strings, arrays, and error objects (values of $type T_ERROR). -/
inductive JS where
  | undef
  | null
  | bool (b : Bool)
  | num (n : Int)
  | str (s : String)
  | arr (xs : List JS)
  | err (msg : String)

mutual

/-- Decidable equality for JS values (written by hand: the deriving handler
does not support the nested List JS occurrence). -/
def JS.decEq : (a b : JS) → Decidable (a = b)
  | JS.undef, JS.undef => isTrue rfl
  | JS.null, JS.null => isTrue rfl
  | JS.bool x, JS.bool y =>
    if h : x = y then isTrue (by rw [h]) else isFalse (fun hh => h (by injection hh))
  | JS.num x, JS.num y =>
    if h : x = y then isTrue (by rw [h]) else isFalse (fun hh => h (by injection hh))
  | JS.str x, JS.str y =>
    if h : x = y then isTrue (by rw [h]) else isFalse (fun hh => h (by injection hh))
  | JS.err x, JS.err y =>
    if h : x = y then isTrue (by rw [h]) else isFalse (fun hh => h (by injection hh))
  | JS.arr xs, JS.arr ys =>
    match JS.decEqList xs ys with
    | isTrue h => isTrue (by rw [h])
    | isFalse h => isFalse (fun hh => h (by injection hh))
  | JS.undef, JS.null => isFalse (fun h => JS.noConfusion h)
  | JS.undef, JS.bool _ => isFalse (fun h => JS.noConfusion h)
  | JS.undef, JS.num _ => isFalse (fun h => JS.noConfusion h)
  | JS.undef, JS.str _ => isFalse (fun h => JS.noConfusion h)
  | JS.undef, JS.arr _ => isFalse (fun h => JS.noConfusion h)
  | JS.undef, JS.err _ => isFalse (fun h => JS.noConfusion h)
  | JS.null, JS.undef => isFalse (fun h => JS.noConfusion h)
  | JS.null, JS.bool _ => isFalse (fun h => JS.noConfusion h)
  | JS.null, JS.num _ => isFalse (fun h => JS.noConfusion h)
  | JS.null, JS.str _ => isFalse (fun h => JS.noConfusion h)
  | JS.null, JS.arr _ => isFalse (fun h => JS.noConfusion h)
  | JS.null, JS.err _ => isFalse (fun h => JS.noConfusion h)
  | JS.bool _, JS.undef => isFalse (fun h => JS.noConfusion h)
  | JS.bool _, JS.null => isFalse (fun h => JS.noConfusion h)
  | JS.bool _, JS.num _ => isFalse (fun h => JS.noConfusion h)
  | JS.bool _, JS.str _ => isFalse (fun h => JS.noConfusion h)
  | JS.bool _, JS.arr _ => isFalse (fun h => JS.noConfusion h)
  | JS.bool _, JS.err _ => isFalse (fun h => JS.noConfusion h)
  | JS.num _, JS.undef => isFalse (fun h => JS.noConfusion h)
  | JS.num _, JS.null => isFalse (fun h => JS.noConfusion h)
  | JS.num _, JS.bool _ => isFalse (fun h => JS.noConfusion h)
  | JS.num _, JS.str _ => isFalse (fun h => JS.noConfusion h)
  | JS.num _, JS.arr _ => isFalse (fun h => JS.noConfusion h)
  | JS.num _, JS.err _ => isFalse (fun h => JS.noConfusion h)
  | JS.str _, JS.undef => isFalse (fun h => JS.noConfusion h)
  | JS.str _, JS.null => isFalse (fun h => JS.noConfusion h)
  | JS.str _, JS.bool _ => isFalse (fun h => JS.noConfusion h)
  | JS.str _, JS.num _ => isFalse (fun h => JS.noConfusion h)
  | JS.str _, JS.arr _ => isFalse (fun h => JS.noConfusion h)
  | JS.str _, JS.err _ => isFalse (fun h => JS.noConfusion h)
  | JS.arr _, JS.undef => isFalse (fun h => JS.noConfusion h)
  | JS.arr _, JS.null => isFalse (fun h => JS.noConfusion h)
  | JS.arr _, JS.bool _ => isFalse (fun h => JS.noConfusion h)
  | JS.arr _, JS.num _ => isFalse (fun h => JS.noConfusion h)
  | JS.arr _, JS.str _ => isFalse (fun h => JS.noConfusion h)
  | JS.arr _, JS.err _ => isFalse (fun h => JS.noConfusion h)
  | JS.err _, JS.undef => isFalse (fun h => JS.noConfusion h)
  | JS.err _, JS.null => isFalse (fun h => JS.noConfusion h)
  | JS.err _, JS.bool _ => isFalse (fun h => JS.noConfusion h)
  | JS.err _, JS.num _ => isFalse (fun h => JS.noConfusion h)
  | JS.err _, JS.str _ => isFalse (fun h => JS.noConfusion h)
  | JS.err _, JS.arr _ => isFalse (fun h => JS.noConfusion h)

/-- Decidable equality for lists of JS values. -/
def JS.decEqList : (xs ys : List JS) → Decidable (xs = ys)
  | [], [] => isTrue rfl
  | [], _ :: _ => isFalse (fun h => List.noConfusion h)
  | _ :: _, [] => isFalse (fun h => List.noConfusion h)
  | x :: xs, y :: ys =>
    match JS.decEq x y, JS.decEqList xs ys with
    | isTrue h1, isTrue h2 => isTrue (by rw [h1, h2])
    | isFalse h1, _ => isFalse (fun hh => h1 (by injection hh))
    | _, isFalse h2 => isFalse (fun hh => h2 (by injection hh))

end

instance : DecidableEq JS := JS.decEq

/-- JavaScript truthiness, used by the `if (!propertyPath)` guard in from()
and by the !!v coercion in the bool()/not() transforms. -/
def truthy : JS → Bool
  | JS.undef => false
  | JS.null => false
  | JS.bool b => b
  | JS.num n => n != 0
  | JS.str s => s != ""
  | JS.arr _ => true
  | JS.err _ => true

/-- Modelled from the spec: the value taxonomy of SC.$type (foundation/utils,
not under src/).  Only the T_ERROR and T_ARRAY comparisons matter to
binding.js. -/
inductive SCType where
  | T_ERROR
  | T_ARRAY
  | T_STRING
  | T_NUMBER
  | T_BOOL
  | T_NULL
  | T_UNDEFINED
  deriving DecidableEq

/-- Modelled from the spec: SC.$type applied to our JS values. -/
def jsType : JS → SCType
  | JS.err _ => SCType.T_ERROR
  | JS.arr _ => SCType.T_ARRAY
  | JS.str _ => SCType.T_STRING
  | JS.num _ => SCType.T_NUMBER
  | JS.bool _ => SCType.T_BOOL
  | JS.null => SCType.T_NULL
  | JS.undef => SCType.T_UNDEFINED

/-- Modelled from the spec: SC.isArray (not under src/); the spec calls
arrays "sequences" and treats strings and other scalars as non-sequences. -/
def SC.isArray : JS → Bool
  | JS.arr _ => true
  | _ => false

/-- The .length read performed by the bool()/not() transforms on arrays. -/
def jsLength : JS → Nat
  | JS.arr xs => xs.length
  | JS.str s => s.length
  | _ => 0

/-- SC.MULTIPLE_PLACEHOLDER from binding.js. -/
def SC.MULTIPLE_PLACEHOLDER : JS := JS.str "@@MULT@@"

/-- SC.NULL_PLACEHOLDER from binding.js. -/
def SC.NULL_PLACEHOLDER : JS := JS.str "@@NULL@@"

/-- SC.EMPTY_PLACEHOLDER from binding.js. -/
def SC.EMPTY_PLACEHOLDER : JS := JS.str "@@EMPTY@@"

/-- The transform functions binding.js pushes onto a transform array.  The
built-in helpers close over a placeholder value; user transforms passed to
transform() are uninterpreted and represented by an index into an
environment of custom functions. -/
inductive TransformFn where
  | single (placeholder : JS)
  | notEmpty (placeholder : JS)
  | notNull (placeholder : JS)
  | multiple
  | bool
  | not
  | isNull
  | custom (i : Nat)
  deriving DecidableEq

/-- The boolean computed by the bool() transform body:
(t == T_ARRAY) ? (v.length > 0) : (v === '') ? NO : !!v. -/
def scBoolValue (v : JS) : Bool :=
  if jsType v = SCType.T_ARRAY then jsLength v > 0
  else if v = JS.str "" then false
  else truthy v

/-- Application of one transform function to a value.  In binding.js every
transform is called as transform(v, this); none of the transforms defined in
the file reads its second argument, so custom transforms are modelled as
value-to-value functions supplied by the environment env. -/
def applyTransform (env : Nat → JS → JS) (t : TransformFn) (v : JS) : JS :=
  match t with
  | TransformFn.single placeholder =>
      match v with
      | JS.arr xs =>
          if xs.length > 1 then placeholder
          else if xs.length ≤ 0 then JS.null
          else xs.headD JS.undef
      | other => other
  | TransformFn.notEmpty placeholder =>
      if v = JS.null ∨ v = JS.undef ∨ v = JS.str "" ∨ v = JS.arr [] then placeholder
      else v
  | TransformFn.notNull placeholder =>
      if v = JS.null ∨ v = JS.undef then placeholder else v
  | TransformFn.multiple =>
      match v with
      | JS.arr xs => JS.arr xs
      | JS.null => JS.arr []
      | JS.undef => JS.arr []
      | other => JS.arr [other]
  | TransformFn.bool =>
      if jsType v = SCType.T_ERROR then v else JS.bool (scBoolValue v)
  | TransformFn.not =>
      if jsType v = SCType.T_ERROR then v else JS.bool (!scBoolValue v)
  | TransformFn.isNull =>
      if jsType v = SCType.T_ERROR then v
      else JS.bool (decide (v = JS.null ∨ v = JS.undef))
  | TransformFn.custom i => env i v

/-- The transform loop of applyBindingValue: each transform receives the
output of the previous one, in pipeline order. -/
def applyTransformList (env : Nat → JS → JS) (ts : List TransformFn) (v : JS) : JS :=
  ts.foldl (fun acc t => applyTransform env t acc) v

/-- One SC.Binding instance.  Field names drop the leading underscore of the
source (e.g. transforms is the source _transforms); fromTarget bundles the
source pair _fromTarget/_fromPropertyKey, which binding.js only ever assigns
together (in _computeBindingTargets), and likewise toTarget.  The transforms
field is a reference into the World heap of transform arrays, because
derived bindings share the parent array by reference.  isCanonical models
JavaScript object identity for the single test the file performs,
this === SC.Binding: it is true exactly on the canonical template and false
on every begotten instance. -/
structure Binding where
  isCanonical : Bool := false
  fromPropertyPath : JS := JS.undef
  fromRoot : Option Nat := none
  fromTuple : Option (Nat × String) := none
  toPropertyPath : JS := JS.undef
  toRoot : Option Nat := none
  toTuple : Option (Nat × String) := none
  isConnected : Bool := false
  oneWay : Bool := false
  noError : Bool := false
  transforms : Option Nat := none
  bindingValue : JS := JS.undef
  fromTarget : Option (Nat × String) := none
  toTarget : Option (Nat × String) := none
  deriving DecidableEq

/-- The canonical SC.Binding template object. -/
def SCBinding : Binding := { isCanonical := true }

/-- SC.beget(this): a fresh object inheriting every configured field of the
receiver.  Prototype inheritance is modelled as a field copy, which agrees
with prototype lookup for every state reachable through the operations of
binding.js (a parent template is never reassigned a field after
derivation; shared mutable state lives behind the transforms heap
reference, which the copy preserves).  The begotten object is a new object,
hence not the canonical template.  beget() also sets ret.parentBinding; that
back-reference is only ever read as parentBinding._transform inside
transform(), see parentTransformRead. -/
def Binding.begetRaw (b : Binding) : Binding :=
  { b with isCanonical := false }

/-- JavaScript errors that the embedded methods can raise. -/
inductive JsErr where
  | referenceError (ident : String)
  deriving DecidableEq

/-- Line 276 of binding.js reads `bidning._fromTuple = null ;`.  The
identifier bidning is a misspelling of binding and is declared nowhere, so
evaluating the line raises a ReferenceError: from() never returns on this
path.  The receiver keeps the _fromPropertyPath and _fromRoot values
assigned by the two preceding lines, but the cached from-tuple is never
cleared and no binding is returned to the caller. -/
def fromTupleClearLine (_ : Binding) : Except JsErr Binding :=
  Except.error (JsErr.referenceError "bidning")

/-- from(propertyPath, root) of binding.js.  A falsy path returns the
receiver unchanged; otherwise the method begets when called on the
canonical template, assigns the path and root, and then executes the
misspelled tuple-clearing line, which raises. -/
def Binding.from' (b : Binding) (propertyPath : JS) (root : Option Nat) : Except JsErr Binding :=
  if truthy propertyPath = false then Except.ok b
  else
    let binding := if b.isCanonical then b.begetRaw else b
    let binding := { binding with fromPropertyPath := propertyPath, fromRoot := root }
    fromTupleClearLine binding

/-- beget(fromPath) of binding.js: SC.beget the receiver, set parentBinding,
and, when fromPath was passed (is not undefined), delegate to from(). -/
def Binding.beget (b : Binding) (fromPath : JS) : Except JsErr Binding :=
  let ret := b.begetRaw
  if fromPath ≠ JS.undef then ret.from' fromPath none else Except.ok ret

/-- to(propertyPath, root) of binding.js: beget when called on the canonical
template, then assign the to-path, to-root and clear the cached to-tuple. -/
def Binding.to (b : Binding) (propertyPath : JS) (root : Option Nat) : Binding :=
  let binding := if b.isCanonical then b.begetRaw else b
  { binding with toPropertyPath := propertyPath, toRoot := root, toTuple := none }

/-- Reading parentBinding._transform (note: singular) inside transform().
No statement of binding.js ever assigns a property named _transform, the
transform arrays are stored under _transforms, so this read yields the
JavaScript value undefined on every binding. -/
def parentTransformRead (_ : Binding) : Option Nat := none

/-- A property on an observed object. -/
structure Obj where
  props : List (String × JS) := []
  deriving DecidableEq

/-- Modelled from the spec: the property read primitive get(object, key). -/
def Obj.get (o : Obj) (key : String) : JS :=
  (o.props.lookup key).getD JS.undef

/-- Writing a property on an object, used by the set-if-changed primitive
once it has decided to write. -/
def Obj.setProp (o : Obj) (key : String) (v : JS) : Obj :=
  { props := o.props.filter (fun p => p.1 != key) ++ [(key, v)] }

/-- The change-handler function values that binding.js defines.  The file
defines exactly one handler, fromPropertyDidChange. -/
inductive Handler where
  | fromPropertyDidChange
  deriving DecidableEq

/-- One registration in the external observer registry: the arguments that
SC.Observers.addObserver received.  The handler component is an Option
because connect() passes this.propertyDidChange, a property read that can
yield undefined. -/
structure ObserverEntry where
  path : JS
  handler : Option Handler
  context : Nat
  root : Option Nat
  deriving DecidableEq

/-- Reading this.propertyDidChange on a binding, the function value that
connect() and disconnect() pass to the observer registry.  No property named
propertyDidChange is defined on SC.Binding or assigned anywhere in
binding.js (the handler the file defines is fromPropertyDidChange), so the
read yields undefined. -/
def Binding.propertyDidChangeRead (_ : Binding) : Option Handler := none

/-- The process-wide state: the binding instances (identified by index), the
heap of transform arrays (shared by reference between a template and its
derived bindings), the observed objects, the observer registry, the path
resolution table, the two pending-change sets of flushPendingChanges, the
guard flag, and the two instrumentation logs described at the top of the
file. -/
structure World where
  bindings : List Binding := []
  tarrays : List (List TransformFn) := []
  objs : List Obj := []
  observers : List ObserverEntry := []
  tuples : List ((JS × Option Nat) × (Nat × String)) := []
  changeQueue : List Nat := []
  alternateChangeQueue : List Nat := []
  isFlushing : Bool := false
  setCalls : List (Nat × String × JS) := []
  applyLog : List Nat := []
  deriving DecidableEq

/-- The empty process state. -/
def emptyWorld : World := {}

/-- The identity environment for custom transforms. -/
def idEnv : Nat → JS → JS := fun _ v => v

/-- Replace binding bId by f applied to it; no other World field changes. -/
def updateBinding (w : World) (bId : Nat) (f : Binding → Binding) : World :=
  match w.bindings[bId]? with
  | none => w
  | some b => { w with bindings := w.bindings.set bId (f b) }

/-- Modelled from the spec: SC.Set.add (foundation/set.js is not under
src/) — adding a member already present is a no-op, otherwise the element
is inserted. -/
def setAdd (q : List Nat) (x : Nat) : List Nat :=
  if x ∈ q then q else q ++ [x]

/-- The enqueue step SC.Binding._changeQueue.add(this) performed by
fromPropertyDidChange, exposed as an operation so that theorems can speak
about enqueuing a binding. -/
def enqueueBinding (w : World) (bId : Nat) : World :=
  { w with changeQueue := setAdd w.changeQueue bId }

/-- Modelled from the spec: SC.Object.tupleForPropertyPath (not under src/)
resolves a property path with an optional root to a (target, key) pair, or
reports not-yet-resolvable; resolution is represented by a table in the
World. -/
def tupleForPropertyPath (w : World) (path : JS) (root : Option Nat) : Option (Nat × String) :=
  (w.tuples.find? (fun e => decide (e.1 = (path, root)))).map (fun e => e.2)

/-- Modelled from the spec: SC.Observers.addObserver(path, handler, context,
root) records the registration. -/
def SC.Observers.addObserver (w : World) (path : JS) (handler : Option Handler)
    (context : Nat) (root : Option Nat) : World :=
  let entry : ObserverEntry := { path := path, handler := handler, context := context, root := root }
  { w with observers := w.observers ++ [entry] }

/-- Modelled from the spec: SC.Observers.removeObserver removes the matching
registrations. -/
def SC.Observers.removeObserver (w : World) (path : JS) (handler : Option Handler)
    (context : Nat) (root : Option Nat) : World :=
  let entry : ObserverEntry := { path := path, handler := handler, context := context, root := root }
  { w with observers := w.observers.filter (fun e => e != entry) }

/-- connect() of binding.js: a no-op when already connected; otherwise it
registers this.propertyDidChange (see propertyDidChangeRead) with the
observer registry on the from side, also on the to side when not one-way,
and marks the binding connected.  The body performs no check that the from
and to paths are set, although its doc comment promises an exception when
they are not.  The returned Nat is the receiver (return this). -/
def Binding.connect (w : World) (bId : Nat) : World × Nat :=
  match w.bindings[bId]? with
  | none => (w, bId)
  | some b =>
    if b.isConnected then (w, bId)
    else
      let w := SC.Observers.addObserver w b.fromPropertyPath b.propertyDidChangeRead bId b.fromRoot
      let w := if b.oneWay then w
               else SC.Observers.addObserver w b.toPropertyPath b.propertyDidChangeRead bId b.toRoot
      (updateBinding w bId (fun b => { b with isConnected := true }), bId)

/-- disconnect() of binding.js: a no-op when not connected; otherwise it
unregisters both sides (the to side only when not one-way) and marks the
binding disconnected. -/
def Binding.disconnect (w : World) (bId : Nat) : World × Nat :=
  match w.bindings[bId]? with
  | none => (w, bId)
  | some b =>
    if !b.isConnected then (w, bId)
    else
      let w := SC.Observers.removeObserver w b.fromPropertyPath b.propertyDidChangeRead bId b.fromRoot
      let w := if b.oneWay then w
               else SC.Observers.removeObserver w b.toPropertyPath b.propertyDidChangeRead bId b.toRoot
      (updateBinding w bId (fun b => { b with isConnected := false }), bId)

/-- fromPropertyDidChange(key, target) of binding.js: read the current value
of key on target; when it differs (strict inequality) from the last recorded
binding value, record it and add the binding to the process-wide change
queue. -/
def Binding.fromPropertyDidChange (w : World) (bId : Nat) (key : String) (targetId : Nat) : World :=
  match w.bindings[bId]?, w.objs[targetId]? with
  | some b, some target =>
    let v := target.get key
    if v = b.bindingValue then w
    else
      let w2 := updateBinding w bId (fun b => { b with bindingValue := v })
      { w2 with changeQueue := setAdd w2.changeQueue bId }
  | _, _ => w

/-- Modelled from the spec: one step of observer dispatch.  A registration
whose callback is defined and whose (path, root) resolves to the written
(object, key) has its callback invoked with (changedKey, changedTarget);
the only defined callback in binding.js is fromPropertyDidChange.
Registrations whose callback is undefined (the ones connect() actually
creates) cannot be invoked and are skipped. -/
def notifyStep (objId : Nat) (key : String) (w : World) (e : ObserverEntry) : World :=
  if e.handler = some Handler.fromPropertyDidChange ∧
     tupleForPropertyPath w e.path e.root = some (objId, key) then
    Binding.fromPropertyDidChange w e.context key objId
  else w

/-- Modelled from the spec: writing a property synchronously notifies every
matching observer registration. -/
def notifyObservers (w : World) (objId : Nat) (key : String) : World :=
  w.observers.foldl (notifyStep objId key) w

/-- Modelled from the spec: the set-if-changed primitive
target.setPathIfChanged(key, value) — it writes only when the new value
differs from the current one, and a performed write triggers observer
dispatch.  Every invocation is recorded in the setCalls log. -/
def setPathIfChanged (w : World) (objId : Nat) (key : String) (v : JS) : World :=
  let w := { w with setCalls := w.setCalls ++ [(objId, key, v)] }
  match w.objs[objId]? with
  | none => w
  | some o =>
    if o.get key = v then w
    else
      let w := { w with objs := w.objs.set objId (o.setProp key v) }
      notifyObservers w objId key

/-- _computeBindingTargets() of binding.js: lazily resolve the from and to
paths to (target, key) pairs and cache them on the binding; an unresolvable
side stays unset and is retried on the next call. -/
def Binding.computeBindingTargets (w : World) (bId : Nat) : World :=
  updateBinding w bId (fun b =>
    let b := if b.fromTarget.isNone then
               match tupleForPropertyPath w b.fromPropertyPath b.fromRoot with
               | some tk => { b with fromTarget := some tk }
               | none => b
             else b
    if b.toTarget.isNone then
      match tupleForPropertyPath w b.toPropertyPath b.toRoot with
      | some tk => { b with toTarget := some tk }
      | none => b
    else b)

/-- applyBindingValue() of binding.js: resolve targets, read the pending
value, echo it raw to the from side when two-way and resolved, then apply
the transforms in order, then coerce error values to null under _noError,
then write the final value to the to side when resolved.  The binding is
re-read after the from-side write because that write can synchronously run
observers, mirroring the source reading this._transforms, this._noError and
this._toTarget only after the write. -/
def Binding.applyBindingValue (env : Nat → JS → JS) (w : World) (bId : Nat) : World :=
  let w1 := Binding.computeBindingTargets w bId
  match w1.bindings[bId]? with
  | none => w1
  | some b =>
    let v := b.bindingValue
    let w2 :=
      match b.oneWay, b.fromTarget with
      | false, some tk => setPathIfChanged w1 tk.1 tk.2 v
      | _, _ => w1
    let b2 := (w2.bindings[bId]?).getD b
    let v2 :=
      match b2.transforms with
      | none => v
      | some r => applyTransformList env (w2.tarrays.getD r []) v
    let v3 := if b2.noError ∧ jsType v2 = SCType.T_ERROR then JS.null else v2
    match b2.toTarget with
    | some tk => setPathIfChanged w2 tk.1 tk.2 v3
    | none => w2

/-- The inner loop of flushPendingChanges:
while (binding = queue.popObject()) binding.applyBindingValue().
After the queue swap the batch being drained is held in
_alternateChangeQueue; popping removes one element from it.  Applying a
binding never touches _alternateChangeQueue (a mid-apply enqueue goes to
_changeQueue), so the batch can be carried as the list being consumed.
Each pop is recorded in the applyLog. -/
def drainBatch (env : Nat → JS → JS) : List Nat → World → World
  | [], w => w
  | bId :: rest, w =>
    let w1 := { w with alternateChangeQueue := rest, applyLog := w.applyLog ++ [bId] }
    drainBatch env rest (Binding.applyBindingValue env w1 bId)

/-- The outer while loop of flushPendingChanges: while the active queue is
non-empty, swap the two queues and drain the captured batch.  The source
loop has no bound; fuel counts outer iterations, and none models the source
not having returned within that bound (the source can genuinely diverge,
e.g. with two bindings endlessly re-triggering each other). -/
def flushLoop (env : Nat → JS → JS) : Nat → World → Option World
  | 0, w => if w.changeQueue = [] then some w else none
  | fuel + 1, w =>
    if w.changeQueue = [] then some w
    else
      let queue := w.changeQueue
      let w1 := { w with changeQueue := w.alternateChangeQueue, alternateChangeQueue := queue }
      flushLoop env fuel (drainBatch env queue w1)

/-- flushPendingChanges() of binding.js: return immediately when the guard
flag _isFlushing is set; otherwise set it, run the swap-and-drain loop to a
fixed point, and clear it. -/
def Binding.flushPendingChanges (env : Nat → JS → JS) (fuel : Nat) (w : World) : Option World :=
  if w.isFlushing then some w
  else
    match flushLoop env fuel { w with isFlushing := true } with
    | some w1 => some { w1 with isFlushing := false }
    | none => none

/-- transform(transformFunc) of binding.js: beget when called on the
canonical template; clone the transform array when it compares equal
(===) to parentBinding._transform — a read that always yields undefined
because the property is misspelled, see parentTransformRead, so an existing
array reference never compares equal and the clone never happens; create
the array when absent; and push the transform function. -/
def Binding.transformMeth (w : World) (b : Binding) (f : TransformFn) : World × Binding :=
  let binding := if b.isCanonical then b.begetRaw else b
  let t := binding.transforms
  let step : World × Binding × Option Nat :=
    if t.isSome ∧ t = parentTransformRead binding then
      match t with
      | some r =>
        let r2 := w.tarrays.length
        ({ w with tarrays := w.tarrays ++ [w.tarrays.getD r []] },
         { binding with transforms := some r2 }, some r2)
      | none => (w, binding, t)
    else (w, binding, t)
  match step with
  | (w, binding, t) =>
    match t with
    | none =>
      let r := w.tarrays.length
      ({ w with tarrays := w.tarrays ++ [[f]] }, { binding with transforms := some r })
    | some r =>
      ({ w with tarrays := w.tarrays.set r ((w.tarrays.getD r []) ++ [f]) }, binding)

/-- single(fromPath, placeholder) of binding.js: default the placeholder to
SC.MULTIPLE_PLACEHOLDER, delegate to from() (a no-op for an absent path),
and append the single-value transform. -/
def Binding.single (w : World) (b : Binding) (fromPath : JS) (placeholderArg : JS) :
    Except JsErr (World × Binding) :=
  let placeholder := if placeholderArg = JS.undef then SC.MULTIPLE_PLACEHOLDER else placeholderArg
  match b.from' fromPath none with
  | Except.error e => Except.error e
  | Except.ok b2 => Except.ok (b2.transformMeth w (TransformFn.single placeholder))

/-- A binding with its pending value erased: two bindings with equal
valueErased agree on every field except bindingValue. -/
def Binding.valueErased (b : Binding) : Binding :=
  { b with bindingValue := JS.undef }

/-- The configuration view of all bindings (everything except pending
values), used to state that observer dispatch only records pending
values. -/
def World.bconfigs (w : World) : List Binding :=
  w.bindings.map Binding.valueErased

/-- The connection flags of all bindings. -/
def World.connFlags (w : World) : List Bool :=
  w.bindings.map Binding.isConnected

theorem connFlags_eq_map_bconfigs (w : World) :
    w.connFlags = (World.bconfigs w).map Binding.isConnected := by
  simp only [World.connFlags, World.bconfigs, List.map_map]
  rfl

theorem connFlags_of_bconfigs {w1 w2 : World}
    (h : World.bconfigs w2 = World.bconfigs w1) :
    World.connFlags w2 = World.connFlags w1 := by
  rw [connFlags_eq_map_bconfigs, connFlags_eq_map_bconfigs, h]

theorem setAdd_mem {q : List Nat} {x y : Nat} : y ∈ setAdd q x ↔ y ∈ q ∨ y = x := by
  unfold setAdd
  by_cases h : x ∈ q
  · simp only [h, if_true]
    constructor
    · exact Or.inl
    · rintro (hy | rfl)
      · exact hy
      · exact h
  · simp [h]

theorem setAdd_self_mem (q : List Nat) (x : Nat) : x ∈ setAdd q x :=
  setAdd_mem.mpr (Or.inr rfl)

theorem setAdd_idem (q : List Nat) (x : Nat) : setAdd (setAdd q x) x = setAdd q x := by
  unfold setAdd
  by_cases h : x ∈ q <;> simp [h]

theorem setAdd_nodup {q : List Nat} (h : q.Nodup) (x : Nat) : (setAdd q x).Nodup := by
  unfold setAdd
  by_cases hm : x ∈ q
  · simp [hm, h]
  · simp only [hm, if_false]
    exact List.Nodup.append h (List.nodup_singleton x) (by simpa using fun hx => hm hx)

theorem listSet_self {α : Type} :
    ∀ (l : List α) (i : Nat) (a : α), l[i]? = some a → l.set i a = l := by
  intro l
  induction l with
  | nil => intro i a h; rfl
  | cons x xs ih =>
    intro i a h
    cases i with
    | zero => simp_all
    | succ n =>
      simp only [List.set]
      rw [ih n a (by simpa using h)]

theorem updateBinding_tarrays (w : World) (i : Nat) (f : Binding → Binding) :
    (updateBinding w i f).tarrays = w.tarrays := by
  unfold updateBinding; split <;> rfl

theorem updateBinding_objs (w : World) (i : Nat) (f : Binding → Binding) :
    (updateBinding w i f).objs = w.objs := by
  unfold updateBinding; split <;> rfl

theorem updateBinding_observers (w : World) (i : Nat) (f : Binding → Binding) :
    (updateBinding w i f).observers = w.observers := by
  unfold updateBinding; split <;> rfl

theorem updateBinding_tuples (w : World) (i : Nat) (f : Binding → Binding) :
    (updateBinding w i f).tuples = w.tuples := by
  unfold updateBinding; split <;> rfl

theorem updateBinding_changeQueue (w : World) (i : Nat) (f : Binding → Binding) :
    (updateBinding w i f).changeQueue = w.changeQueue := by
  unfold updateBinding; split <;> rfl

theorem updateBinding_alternate (w : World) (i : Nat) (f : Binding → Binding) :
    (updateBinding w i f).alternateChangeQueue = w.alternateChangeQueue := by
  unfold updateBinding; split <;> rfl

theorem updateBinding_isFlushing (w : World) (i : Nat) (f : Binding → Binding) :
    (updateBinding w i f).isFlushing = w.isFlushing := by
  unfold updateBinding; split <;> rfl

theorem updateBinding_setCalls (w : World) (i : Nat) (f : Binding → Binding) :
    (updateBinding w i f).setCalls = w.setCalls := by
  unfold updateBinding; split <;> rfl

theorem updateBinding_applyLog (w : World) (i : Nat) (f : Binding → Binding) :
    (updateBinding w i f).applyLog = w.applyLog := by
  unfold updateBinding; split <;> rfl

theorem updateBinding_bconfigs (w : World) (i : Nat) (f : Binding → Binding)
    (hf : ∀ b, Binding.valueErased (f b) = Binding.valueErased b) :
    World.bconfigs (updateBinding w i f) = World.bconfigs w := by
  unfold updateBinding World.bconfigs
  cases h : w.bindings[i]? with
  | none => rfl
  | some b =>
    simp only
    rw [List.map_set, hf b]
    exact listSet_self _ _ _ (by rw [List.getElem?_map, h]; rfl)

theorem updateBinding_connFlags (w : World) (i : Nat) (f : Binding → Binding)
    (hf : ∀ b, (f b).isConnected = b.isConnected) :
    World.connFlags (updateBinding w i f) = World.connFlags w := by
  unfold updateBinding World.connFlags
  cases h : w.bindings[i]? with
  | none => rfl
  | some b =>
    simp only
    rw [List.map_set, hf b]
    exact listSet_self _ _ _ (by rw [List.getElem?_map, h]; rfl)

/-- The World fields that observer dispatch (fromPropertyDidChange and the
machinery around it) leaves untouched, plus the fact that it only records
pending values on bindings. -/
def CoreFrame (w2 w1 : World) : Prop :=
  w2.applyLog = w1.applyLog ∧ w2.observers = w1.observers ∧ w2.tarrays = w1.tarrays ∧
  w2.tuples = w1.tuples ∧ w2.alternateChangeQueue = w1.alternateChangeQueue ∧
  w2.isFlushing = w1.isFlushing ∧ World.bconfigs w2 = World.bconfigs w1

theorem coreFrame_refl (w : World) : CoreFrame w w :=
  ⟨rfl, rfl, rfl, rfl, rfl, rfl, rfl⟩

theorem coreFrame_trans {w2 w1 w0 : World} (h2 : CoreFrame w2 w1) (h1 : CoreFrame w1 w0) :
    CoreFrame w2 w0 := by
  obtain ⟨a2, b2, c2, d2, e2, f2, g2⟩ := h2
  obtain ⟨a1, b1, c1, d1, e1, f1, g1⟩ := h1
  exact ⟨a2.trans a1, b2.trans b1, c2.trans c1, d2.trans d1, e2.trans e1, f2.trans f1, g2.trans g1⟩

theorem fpdc_coreFrame (w : World) (bId : Nat) (key : String) (targetId : Nat) :
    CoreFrame (Binding.fromPropertyDidChange w bId key targetId) w := by
  unfold Binding.fromPropertyDidChange
  split
  · dsimp only
    split
    · exact coreFrame_refl w
    · refine ⟨?_, ?_, ?_, ?_, ?_, ?_, ?_⟩ <;>
        simp [updateBinding_applyLog, updateBinding_observers, updateBinding_tarrays,
          updateBinding_tuples, updateBinding_alternate, updateBinding_isFlushing,
          updateBinding_bconfigs, Binding.valueErased, World.bconfigs]
      · exact updateBinding_bconfigs w bId _ (fun b => rfl)
  · exact coreFrame_refl w

theorem fpdc_setCalls (w : World) (bId : Nat) (key : String) (targetId : Nat) :
    (Binding.fromPropertyDidChange w bId key targetId).setCalls = w.setCalls := by
  unfold Binding.fromPropertyDidChange
  split
  · dsimp only
    split
    · rfl
    · simp [updateBinding_setCalls]
  · rfl

theorem fpdc_objs (w : World) (bId : Nat) (key : String) (targetId : Nat) :
    (Binding.fromPropertyDidChange w bId key targetId).objs = w.objs := by
  unfold Binding.fromPropertyDidChange
  split
  · dsimp only
    split
    · rfl
    · simp [updateBinding_objs]
  · rfl

theorem fpdc_queue_mem {w : World} {bId : Nat} {key : String} {targetId : Nat} {x : Nat}
    (h : x ∈ (Binding.fromPropertyDidChange w bId key targetId).changeQueue) :
    x ∈ w.changeQueue ∨ x = bId := by
  unfold Binding.fromPropertyDidChange at h
  revert h
  split
  · dsimp only
    split
    · exact fun h => Or.inl h
    · intro h
      simp only at h
      rw [updateBinding_changeQueue] at h
      exact setAdd_mem.mp h
  · exact fun h => Or.inl h

theorem notifyStep_coreFrame (objId : Nat) (key : String) (w : World) (e : ObserverEntry) :
    CoreFrame (notifyStep objId key w e) w := by
  unfold notifyStep
  split
  · exact fpdc_coreFrame w e.context key objId
  · exact coreFrame_refl w

theorem notifyStep_setCalls (objId : Nat) (key : String) (w : World) (e : ObserverEntry) :
    (notifyStep objId key w e).setCalls = w.setCalls := by
  unfold notifyStep
  split
  · exact fpdc_setCalls w e.context key objId
  · rfl

theorem notifyStep_objs (objId : Nat) (key : String) (w : World) (e : ObserverEntry) :
    (notifyStep objId key w e).objs = w.objs := by
  unfold notifyStep
  split
  · exact fpdc_objs w e.context key objId
  · rfl

theorem notifyStep_queue_mem {objId : Nat} {key : String} {w : World} {e : ObserverEntry} {x : Nat}
    (h : x ∈ (notifyStep objId key w e).changeQueue) :
    x ∈ w.changeQueue ∨ x = e.context := by
  unfold notifyStep at h
  revert h
  split
  · exact fun h => fpdc_queue_mem h
  · exact fun h => Or.inl h

theorem notifyFold_coreFrame (objId : Nat) (key : String) :
    ∀ (es : List ObserverEntry) (w : World),
      CoreFrame (es.foldl (notifyStep objId key) w) w := by
  intro es
  induction es with
  | nil => intro w; exact coreFrame_refl w
  | cons e rest ih =>
    intro w
    exact coreFrame_trans (ih (notifyStep objId key w e)) (notifyStep_coreFrame objId key w e)

theorem notifyFold_setCalls (objId : Nat) (key : String) :
    ∀ (es : List ObserverEntry) (w : World),
      (es.foldl (notifyStep objId key) w).setCalls = w.setCalls := by
  intro es
  induction es with
  | nil => intro w; rfl
  | cons e rest ih =>
    intro w
    rw [List.foldl_cons, ih (notifyStep objId key w e), notifyStep_setCalls]

theorem notifyFold_objs (objId : Nat) (key : String) :
    ∀ (es : List ObserverEntry) (w : World),
      (es.foldl (notifyStep objId key) w).objs = w.objs := by
  intro es
  induction es with
  | nil => intro w; rfl
  | cons e rest ih =>
    intro w
    rw [List.foldl_cons, ih (notifyStep objId key w e), notifyStep_objs]

theorem notifyFold_queue_mem (objId : Nat) (key : String) :
    ∀ (es : List ObserverEntry) (w : World) (x : Nat),
      x ∈ (es.foldl (notifyStep objId key) w).changeQueue →
      x ∈ w.changeQueue ∨ ∃ e, e ∈ es ∧ e.context = x := by
  intro es
  induction es with
  | nil => intro w x h; exact Or.inl h
  | cons e rest ih =>
    intro w x h
    rcases ih (notifyStep objId key w e) x h with h1 | h1
    · rcases notifyStep_queue_mem h1 with h2 | h2
      · exact Or.inl h2
      · exact Or.inr ⟨e, List.mem_cons_self e rest, h2.symm⟩
    · rcases h1 with ⟨e1, he1, hc⟩
      exact Or.inr ⟨e1, List.mem_cons_of_mem e he1, hc⟩

theorem notifyObservers_coreFrame (w : World) (objId : Nat) (key : String) :
    CoreFrame (notifyObservers w objId key) w :=
  notifyFold_coreFrame objId key w.observers w

theorem notifyObservers_setCalls (w : World) (objId : Nat) (key : String) :
    (notifyObservers w objId key).setCalls = w.setCalls :=
  notifyFold_setCalls objId key w.observers w

theorem notifyObservers_queue_mem {w : World} {objId : Nat} {key : String} {x : Nat}
    (h : x ∈ (notifyObservers w objId key).changeQueue) :
    x ∈ w.changeQueue ∨ ∃ e, e ∈ w.observers ∧ e.context = x :=
  notifyFold_queue_mem objId key w.observers w x h

theorem sPIC_coreFrame (w : World) (objId : Nat) (key : String) (v : JS) :
    CoreFrame (setPathIfChanged w objId key v) w := by
  unfold setPathIfChanged
  dsimp only
  split
  · exact coreFrame_refl _
  · split
    · exact coreFrame_refl _
    · exact notifyObservers_coreFrame _ objId key

theorem sPIC_setCalls (w : World) (objId : Nat) (key : String) (v : JS) :
    (setPathIfChanged w objId key v).setCalls = w.setCalls ++ [(objId, key, v)] := by
  unfold setPathIfChanged
  dsimp only
  split
  · rfl
  · split
    · rfl
    · rw [notifyObservers_setCalls]

theorem sPIC_queue_mem {w : World} {objId : Nat} {key : String} {v : JS} {x : Nat}
    (h : x ∈ (setPathIfChanged w objId key v).changeQueue) :
    x ∈ w.changeQueue ∨ ∃ e, e ∈ w.observers ∧ e.context = x := by
  unfold setPathIfChanged at h
  dsimp only at h
  revert h
  split
  · exact fun h => Or.inl h
  · split
    · exact fun h => Or.inl h
    · intro h
      rcases notifyObservers_queue_mem h with h1 | h1
      · exact Or.inl h1
      · exact Or.inr h1

theorem compute_tarrays (w : World) (bId : Nat) :
    (Binding.computeBindingTargets w bId).tarrays = w.tarrays := by
  unfold Binding.computeBindingTargets
  exact updateBinding_tarrays w bId _

theorem compute_setCalls (w : World) (bId : Nat) :
    (Binding.computeBindingTargets w bId).setCalls = w.setCalls := by
  unfold Binding.computeBindingTargets
  exact updateBinding_setCalls w bId _

theorem compute_applyLog (w : World) (bId : Nat) :
    (Binding.computeBindingTargets w bId).applyLog = w.applyLog := by
  unfold Binding.computeBindingTargets
  exact updateBinding_applyLog w bId _

theorem compute_observers (w : World) (bId : Nat) :
    (Binding.computeBindingTargets w bId).observers = w.observers := by
  unfold Binding.computeBindingTargets
  exact updateBinding_observers w bId _

theorem compute_changeQueue (w : World) (bId : Nat) :
    (Binding.computeBindingTargets w bId).changeQueue = w.changeQueue := by
  unfold Binding.computeBindingTargets
  exact updateBinding_changeQueue w bId _

theorem compute_alternate (w : World) (bId : Nat) :
    (Binding.computeBindingTargets w bId).alternateChangeQueue = w.alternateChangeQueue := by
  unfold Binding.computeBindingTargets
  exact updateBinding_alternate w bId _

theorem compute_isFlushing (w : World) (bId : Nat) :
    (Binding.computeBindingTargets w bId).isFlushing = w.isFlushing := by
  unfold Binding.computeBindingTargets
  exact updateBinding_isFlushing w bId _

theorem compute_connFlags (w : World) (bId : Nat) :
    World.connFlags (Binding.computeBindingTargets w bId) = World.connFlags w := by
  unfold Binding.computeBindingTargets
  apply updateBinding_connFlags
  intro b
  dsimp only
  repeat' split
  all_goals rfl

/-- The World fields applyBindingValue leaves untouched: it never logs its
own application (drainBatch does), never registers or unregisters
observers, never touches the batch being drained, the guard flag, or any
connection flag. -/
def ApplyFrame (w2 w1 : World) : Prop :=
  w2.applyLog = w1.applyLog ∧ w2.observers = w1.observers ∧
  w2.alternateChangeQueue = w1.alternateChangeQueue ∧ w2.isFlushing = w1.isFlushing ∧
  World.connFlags w2 = World.connFlags w1

theorem applyFrame_refl (w : World) : ApplyFrame w w :=
  ⟨rfl, rfl, rfl, rfl, rfl⟩

theorem applyFrame_trans {w2 w1 w0 : World}
    (h2 : ApplyFrame w2 w1) (h1 : ApplyFrame w1 w0) : ApplyFrame w2 w0 := by
  obtain ⟨a2, b2, c2, d2, e2⟩ := h2
  obtain ⟨a1, b1, c1, d1, e1⟩ := h1
  exact ⟨a2.trans a1, b2.trans b1, c2.trans c1, d2.trans d1, e2.trans e1⟩

theorem coreFrame_applyFrame {w2 w1 : World} (h : CoreFrame w2 w1) : ApplyFrame w2 w1 := by
  obtain ⟨ha, hb, _, _, he, hf, hg⟩ := h
  exact ⟨ha, hb, he, hf, connFlags_of_bconfigs hg⟩

theorem sPIC_applyFrame (w : World) (objId : Nat) (key : String) (v : JS) :
    ApplyFrame (setPathIfChanged w objId key v) w :=
  coreFrame_applyFrame (sPIC_coreFrame w objId key v)

theorem compute_applyFrame (w : World) (bId : Nat) :
    ApplyFrame (Binding.computeBindingTargets w bId) w :=
  ⟨compute_applyLog w bId, compute_observers w bId, compute_alternate w bId,
   compute_isFlushing w bId, compute_connFlags w bId⟩

theorem apply_applyFrame (env : Nat → JS → JS) (w : World) (bId : Nat) :
    ApplyFrame (Binding.applyBindingValue env w bId) w := by
  unfold Binding.applyBindingValue
  dsimp only
  split
  · exact compute_applyFrame w bId
  · refine applyFrame_trans ?_ (compute_applyFrame w bId)
    split
    · exact applyFrame_trans (sPIC_applyFrame _ _ _ _)
        (by split <;> first
          | exact sPIC_applyFrame _ _ _ _
          | exact applyFrame_refl _)
    · split <;> first
        | exact sPIC_applyFrame _ _ _ _
        | exact applyFrame_refl _

theorem sPIC_observers (w : World) (objId : Nat) (key : String) (v : JS) :
    (setPathIfChanged w objId key v).observers = w.observers :=
  (sPIC_coreFrame w objId key v).2.1

theorem apply_queue_mem {env : Nat → JS → JS} {w : World} {bId : Nat} {x : Nat}
    (h : x ∈ (Binding.applyBindingValue env w bId).changeQueue) :
    x ∈ w.changeQueue ∨ ∃ e, e ∈ w.observers ∧ e.context = x := by
  have hco := compute_observers w bId
  have hcq := compute_changeQueue w bId
  unfold Binding.applyBindingValue at h
  dsimp only at h
  revert h
  split
  · intro h; rw [hcq] at h; exact Or.inl h
  · split
    · split
      · intro h
        rcases sPIC_queue_mem h with h1 | h1
        · rcases sPIC_queue_mem h1 with h2 | h2
          · rw [hcq] at h2; exact Or.inl h2
          · rw [hco] at h2; exact Or.inr h2
        · rw [sPIC_observers, hco] at h1
          exact Or.inr h1
      · intro h
        rcases sPIC_queue_mem h with h1 | h1
        · rw [hcq] at h1; exact Or.inl h1
        · rw [hco] at h1; exact Or.inr h1
    · split
      · intro h
        rcases sPIC_queue_mem h with h1 | h1
        · rw [hcq] at h1; exact Or.inl h1
        · rw [hco] at h1; exact Or.inr h1
      · intro h; rw [hcq] at h; exact Or.inl h

theorem drain_applyLog (env : Nat → JS → JS) :
    ∀ (batch : List Nat) (w : World),
      (drainBatch env batch w).applyLog = w.applyLog ++ batch := by
  intro batch
  induction batch with
  | nil => intro w; simp [drainBatch]
  | cons bId rest ih =>
    intro w
    rw [drainBatch]
    rw [ih, (apply_applyFrame env _ bId).1]
    simp

theorem drain_observers (env : Nat → JS → JS) :
    ∀ (batch : List Nat) (w : World),
      (drainBatch env batch w).observers = w.observers := by
  intro batch
  induction batch with
  | nil => intro w; rfl
  | cons bId rest ih =>
    intro w
    rw [drainBatch]
    rw [ih, (apply_applyFrame env _ bId).2.1]

theorem drain_isFlushing (env : Nat → JS → JS) :
    ∀ (batch : List Nat) (w : World),
      (drainBatch env batch w).isFlushing = w.isFlushing := by
  intro batch
  induction batch with
  | nil => intro w; rfl
  | cons bId rest ih =>
    intro w
    rw [drainBatch]
    rw [ih, (apply_applyFrame env _ bId).2.2.2.1]

theorem drain_connFlags (env : Nat → JS → JS) :
    ∀ (batch : List Nat) (w : World),
      World.connFlags (drainBatch env batch w) = World.connFlags w := by
  intro batch
  induction batch with
  | nil => intro w; rfl
  | cons bId rest ih =>
    intro w
    rw [drainBatch]
    rw [ih, (apply_applyFrame env _ bId).2.2.2.2]
    rfl

theorem drain_queue_mem (env : Nat → JS → JS) :
    ∀ (batch : List Nat) (w : World) (x : Nat),
      x ∈ (drainBatch env batch w).changeQueue →
      x ∈ w.changeQueue ∨ ∃ e, e ∈ w.observers ∧ e.context = x := by
  intro batch
  induction batch with
  | nil => intro w x h; exact Or.inl h
  | cons bId rest ih =>
    intro w x h
    rw [drainBatch] at h
    rcases ih _ x h with h1 | h1
    · rcases apply_queue_mem h1 with h2 | h2
      · exact Or.inl h2
      · exact Or.inr h2
    · rw [(apply_applyFrame env _ bId).2.1] at h1
      exact Or.inr h1

theorem drain_alternate (env : Nat → JS → JS) :
    ∀ (batch : List Nat) (w : World), batch ≠ [] →
      (drainBatch env batch w).alternateChangeQueue = [] := by
  intro batch
  induction batch with
  | nil => intro w h; exact absurd rfl h
  | cons bId rest ih =>
    intro w _
    rw [drainBatch]
    cases rest with
    | nil =>
      rw [drainBatch]
      exact (apply_applyFrame env _ bId).2.2.1
    | cons r rs => exact ih _ (by simp)

theorem floop_applyLog_mem (env : Nat → JS → JS) :
    ∀ (fuel : Nat) (w w' : World), flushLoop env fuel w = some w' →
      ∀ x, x ∈ w.applyLog → x ∈ w'.applyLog := by
  intro fuel
  induction fuel with
  | zero =>
    intro w w' h x hx
    unfold flushLoop at h
    revert h
    split
    · intro h; cases h; exact hx
    · intro h; cases h
  | succ n ih =>
    intro w w' h x hx
    rw [flushLoop] at h
    revert h
    split
    · intro h; cases h; exact hx
    · dsimp only
      intro h
      refine ih _ _ h x ?_
      rw [drain_applyLog]
      exact List.mem_append_left _ hx

theorem floop_queue_empty (env : Nat → JS → JS) :
    ∀ (fuel : Nat) (w w' : World), flushLoop env fuel w = some w' →
      w'.changeQueue = [] := by
  intro fuel
  induction fuel with
  | zero =>
    intro w w' h
    unfold flushLoop at h
    revert h
    split
    next hq => intro h; cases h; exact hq
    next => intro h; cases h
  | succ n ih =>
    intro w w' h
    rw [flushLoop] at h
    revert h
    split
    next hq => intro h; cases h; exact hq
    next =>
      dsimp only
      intro h
      exact ih _ _ h

theorem floop_isFlushing (env : Nat → JS → JS) :
    ∀ (fuel : Nat) (w w' : World), flushLoop env fuel w = some w' →
      w'.isFlushing = w.isFlushing := by
  intro fuel
  induction fuel with
  | zero =>
    intro w w' h
    unfold flushLoop at h
    revert h
    split
    · intro h; cases h; rfl
    · intro h; cases h
  | succ n ih =>
    intro w w' h
    rw [flushLoop] at h
    revert h
    split
    · intro h; cases h; rfl
    · dsimp only
      intro h
      rw [ih _ _ h, drain_isFlushing]

theorem floop_connFlags (env : Nat → JS → JS) :
    ∀ (fuel : Nat) (w w' : World), flushLoop env fuel w = some w' →
      World.connFlags w' = World.connFlags w := by
  intro fuel
  induction fuel with
  | zero =>
    intro w w' h
    unfold flushLoop at h
    revert h
    split
    · intro h; cases h; rfl
    · intro h; cases h
  | succ n ih =>
    intro w w' h
    rw [flushLoop] at h
    revert h
    split
    · intro h; cases h; rfl
    · dsimp only
      intro h
      rw [ih _ _ h, drain_connFlags]
      rfl

theorem floop_observers (env : Nat → JS → JS) :
    ∀ (fuel : Nat) (w w' : World), flushLoop env fuel w = some w' →
      w'.observers = w.observers := by
  intro fuel
  induction fuel with
  | zero =>
    intro w w' h
    unfold flushLoop at h
    revert h
    split
    · intro h; cases h; rfl
    · intro h; cases h
  | succ n ih =>
    intro w w' h
    rw [flushLoop] at h
    revert h
    split
    · intro h; cases h; rfl
    · dsimp only
      intro h
      rw [ih _ _ h, drain_observers]

theorem floop_mem_applied (env : Nat → JS → JS) :
    ∀ (fuel : Nat) (w w' : World), flushLoop env fuel w = some w' →
      ∀ x, x ∈ w.changeQueue → x ∈ w'.applyLog := by
  intro fuel
  induction fuel with
  | zero =>
    intro w w' h x hx
    unfold flushLoop at h
    revert h
    split
    next hq => intro h; rw [hq] at hx; cases hx
    next => intro h; cases h
  | succ n ih =>
    intro w w' h x hx
    rw [flushLoop] at h
    revert h
    split
    next hq => intro h; rw [hq] at hx; cases hx
    next =>
      dsimp only
      intro h
      refine floop_applyLog_mem env n _ _ h x ?_
      rw [drain_applyLog]
      exact List.mem_append_right _ hx

theorem floop_count_stable (env : Nat → JS → JS) (bId : Nat) :
    ∀ (fuel : Nat) (w w' : World),
      (∀ e, e ∈ w.observers → e.context ≠ bId) →
      bId ∉ w.changeQueue → bId ∉ w.alternateChangeQueue →
      flushLoop env fuel w = some w' →
      w'.applyLog.count bId = w.applyLog.count bId := by
  intro fuel
  induction fuel with
  | zero =>
    intro w w' hobs hq ha h
    unfold flushLoop at h
    revert h
    split
    · intro h; cases h; rfl
    · intro h; cases h
  | succ n ih =>
    intro w w' hobs hq ha h
    rw [flushLoop] at h
    revert h
    split
    · intro h; cases h; rfl
    · dsimp only
      intro h
      have hobs2 : ∀ e, e ∈ (drainBatch env w.changeQueue
          { w with changeQueue := w.alternateChangeQueue,
                   alternateChangeQueue := w.changeQueue }).observers → e.context ≠ bId := by
        rw [drain_observers]
        exact hobs
      have hq2 : bId ∉ (drainBatch env w.changeQueue
          { w with changeQueue := w.alternateChangeQueue,
                   alternateChangeQueue := w.changeQueue }).changeQueue := by
        intro hmem
        rcases drain_queue_mem env _ _ _ hmem with h1 | h1
        · exact ha h1
        · rcases h1 with ⟨e, he, hc⟩
          exact hobs e he hc
      have ha2 : bId ∉ (drainBatch env w.changeQueue
          { w with changeQueue := w.alternateChangeQueue,
                   alternateChangeQueue := w.changeQueue }).alternateChangeQueue := by
        rw [drain_alternate]
        · exact List.not_mem_nil bId
        · assumption
      have hcount := ih _ _ hobs2 hq2 ha2 h
      rw [hcount, drain_applyLog]
      simp only [List.count_append]
      have : (w.changeQueue.count bId) = 0 := List.count_eq_zero.mpr hq
      simp [this]

theorem floop_count_once (env : Nat → JS → JS) (bId : Nat) :
    ∀ (fuel : Nat) (w w' : World),
      w.changeQueue.Nodup → bId ∈ w.changeQueue → w.alternateChangeQueue = [] →
      (∀ e, e ∈ w.observers → e.context ≠ bId) →
      flushLoop env fuel w = some w' →
      w'.applyLog.count bId = w.applyLog.count bId + 1 := by
  intro fuel
  cases fuel with
  | zero =>
    intro w w' hnd hm ha hobs h
    unfold flushLoop at h
    revert h
    split
    next hq => intro h; rw [hq] at hm; cases hm
    next => intro h; cases h
  | succ n =>
    intro w w' hnd hm ha hobs h
    rw [flushLoop] at h
    revert h
    split
    next hq => intro h; rw [hq] at hm; cases hm
    next hq =>
      dsimp only
      intro h
      have hobs2 : ∀ e, e ∈ (drainBatch env w.changeQueue
          { w with changeQueue := w.alternateChangeQueue,
                   alternateChangeQueue := w.changeQueue }).observers → e.context ≠ bId := by
        rw [drain_observers]
        exact hobs
      have hq2 : bId ∉ (drainBatch env w.changeQueue
          { w with changeQueue := w.alternateChangeQueue,
                   alternateChangeQueue := w.changeQueue }).changeQueue := by
        intro hmem
        rcases drain_queue_mem env _ _ _ hmem with h1 | h1
        · rw [ha] at h1
          cases h1
        · rcases h1 with ⟨e, he, hc⟩
          exact hobs e he hc
      have ha2 : bId ∉ (drainBatch env w.changeQueue
          { w with changeQueue := w.alternateChangeQueue,
                   alternateChangeQueue := w.changeQueue }).alternateChangeQueue := by
        rw [drain_alternate]
        · exact List.not_mem_nil bId
        · assumption
      have hcount := floop_count_stable env bId n _ _ hobs2 hq2 ha2 h
      rw [hcount, drain_applyLog]
      simp only [List.count_append]
      have h1 : w.changeQueue.count bId = 1 := List.count_eq_one_of_mem hnd hm
      simp [h1]

theorem sPIC_tarrays (w : World) (objId : Nat) (key : String) (v : JS) :
    (setPathIfChanged w objId key v).tarrays = w.tarrays :=
  (sPIC_coreFrame w objId key v).2.2.1

theorem sPIC_bconfigs (w : World) (objId : Nat) (key : String) (v : JS) :
    World.bconfigs (setPathIfChanged w objId key v) = World.bconfigs w :=
  (sPIC_coreFrame w objId key v).2.2.2.2.2.2

theorem bconfigs_index {w2 w1 : World} {bId : Nat} {b1 : Binding}
    (hb : World.bconfigs w2 = World.bconfigs w1)
    (h : w1.bindings[bId]? = some b1) :
    ∃ b2, w2.bindings[bId]? = some b2 ∧ Binding.valueErased b2 = Binding.valueErased b1 := by
  have h2 : (w2.bindings.map Binding.valueErased)[bId]? =
      (w1.bindings.map Binding.valueErased)[bId]? := by
    rw [show w2.bindings.map Binding.valueErased = World.bconfigs w2 from rfl, hb]
    rfl
  rw [List.getElem?_map, List.getElem?_map, h] at h2
  cases h3 : w2.bindings[bId]? with
  | none => rw [h3] at h2; cases h2
  | some b2 =>
    rw [h3] at h2
    refine ⟨b2, rfl, ?_⟩
    injection h2

theorem valueErased_fields {b2 b1 : Binding}
    (h : Binding.valueErased b2 = Binding.valueErased b1) :
    b2.oneWay = b1.oneWay ∧ b2.noError = b1.noError ∧ b2.transforms = b1.transforms ∧
    b2.fromTarget = b1.fromTarget ∧ b2.toTarget = b1.toTarget := by
  have h1 := congrArg Binding.oneWay h
  have h2 := congrArg Binding.noError h
  have h3 := congrArg Binding.transforms h
  have h4 := congrArg Binding.fromTarget h
  have h5 := congrArg Binding.toTarget h
  exact ⟨h1, h2, h3, h4, h5⟩

/-- C5: applyBindingValue proceeds in order: (1) when the binding is not
one-way and the from-target is resolved, the raw untransformed pending
value is handed to the set-if-changed primitive for the from-endpoint;
(2) the transforms are then applied to the value in pipeline order;
(3) under the suppress-errors flag (_noError) an error-typed result becomes
null; (4) when the to-target is resolved the final value is handed to the
set-if-changed primitive for the to-endpoint.  The setCalls log records
exactly these invocations, in this order, with these values. -/
theorem c5_applyBindingValue_order (env : Nat → JS → JS) (w : World) (bId : Nat) (b1 : Binding)
    (h : (Binding.computeBindingTargets w bId).bindings[bId]? = some b1) :
    (Binding.applyBindingValue env w bId).setCalls =
      (w.setCalls ++
        (match b1.oneWay, b1.fromTarget with
         | false, some tk => [(tk.1, tk.2, b1.bindingValue)]
         | _, _ => [])) ++
      (match b1.toTarget with
       | some tk =>
         [(tk.1, tk.2,
           (fun v2 => if b1.noError ∧ jsType v2 = SCType.T_ERROR then JS.null else v2)
             (match b1.transforms with
              | none => b1.bindingValue
              | some r => applyTransformList env (w.tarrays.getD r []) b1.bindingValue))]
       | none => []) := by
  have hsc := compute_setCalls w bId
  have hta := compute_tarrays w bId
  unfold Binding.applyBindingValue
  dsimp only
  rw [h]
  dsimp only
  cases ho : b1.oneWay with
  | false =>
    cases hft : b1.fromTarget with
    | none =>
      dsimp only
      rw [h]
      simp only [Option.getD_some]
      cases htt : b1.toTarget with
      | some tk2 =>
        dsimp only
        rw [sPIC_setCalls, hsc, hta]
        simp
      | none =>
        dsimp only
        rw [hsc]
        simp
    | some tk =>
      dsimp only
      obtain ⟨b2, hb2, hve⟩ :=
        bconfigs_index (sPIC_bconfigs (Binding.computeBindingTargets w bId) tk.1 tk.2 b1.bindingValue) h
      obtain ⟨how, hne, htr, hfr, hto⟩ := valueErased_fields hve
      rw [hb2]
      simp only [Option.getD_some]
      rw [htr, hne, hto, sPIC_tarrays, hta]
      cases htt : b1.toTarget with
      | some tk2 =>
        dsimp only
        rw [sPIC_setCalls, sPIC_setCalls, hsc]
      | none =>
        dsimp only
        rw [sPIC_setCalls, hsc]
        simp
  | true =>
    cases hft : b1.fromTarget with
    | none =>
      dsimp only
      rw [h]
      simp only [Option.getD_some]
      cases htt : b1.toTarget with
      | some tk2 =>
        dsimp only
        rw [sPIC_setCalls, hsc, hta]
        simp
      | none =>
        dsimp only
        rw [hsc]
        simp
    | some tk =>
      dsimp only
      rw [h]
      simp only [Option.getD_some]
      cases htt : b1.toTarget with
      | some tk2 =>
        dsimp only
        rw [sPIC_setCalls, hsc, hta]
        simp
      | none =>
        dsimp only
        rw [hsc]
        simp

/-- C1: from() with a truthy path never returns a binding: line 276 of
binding.js reads the undeclared identifier bidning (a misspelling of
binding), raising a ReferenceError before the cached from-tuple is cleared,
both on the canonical template and on any derived binding; only the
falsy-path branch behaves as the claim states, returning the receiver
unchanged. -/
theorem c1_from_reference_error :
    (Binding.from' SCBinding (JS.str "MyApp.someController.value") none =
      Except.error (JsErr.referenceError "bidning"))
    ∧ (∀ (b : Binding) (r : Option Nat), Binding.from' b JS.null r = Except.ok b)
    ∧ (∀ (b : Binding) (r : Option Nat), Binding.from' b JS.undef r = Except.ok b)
    ∧ (∀ (b : Binding) (r : Option Nat),
        Binding.from' b (JS.str "a.b") r = Except.error (JsErr.referenceError "bidning")) := by
  refine ⟨rfl, fun b r => rfl, fun b r => rfl, fun b r => ?_⟩
  unfold Binding.from'
  simp [truthy, fromTupleClearLine]

/-- The template binding of the C2 scenario: its transform pipeline is the
heap array at index 0, which holds one transform. -/
def c2Template : Binding := { transforms := some 0 }

/-- The world of the C2 scenario. -/
def c2World : World := { emptyWorld with tarrays := [[TransformFn.bool]] }

/-- C2: deriving a template with a non-empty pipeline and calling
transform() on the derived binding mutates the parent template's pipeline
in place: the clone guard compares the array against the misspelled
parentBinding._transform (always undefined), so the copy-on-write never
happens, the derived binding keeps the shared array reference (some 0) and
the push appends to the template's own array, which grows from [bool] to
[bool, isNull]. -/
theorem c2_transform_mutates_parent :
    (Binding.beget c2Template JS.undef = Except.ok (Binding.begetRaw c2Template))
    ∧ ((Binding.transformMeth c2World (Binding.begetRaw c2Template) TransformFn.isNull).2.transforms
        = some 0)
    ∧ ((Binding.transformMeth c2World (Binding.begetRaw c2Template) TransformFn.isNull).1.tarrays.getD 0 []
        = [TransformFn.bool, TransformFn.isNull])
    ∧ (c2World.tarrays.getD 0 [] = [TransformFn.bool])
    ∧ (c2Template.transforms = some 0)
    ∧ (parentTransformRead (Binding.begetRaw c2Template) = none) :=
  ⟨rfl, rfl, rfl, rfl, rfl, rfl⟩

/-- The world of the C3 scenario: one unconnected two-way binding with both
paths configured. -/
def c3World : World :=
  { emptyWorld with
      bindings := [{ fromPropertyPath := JS.str "a.b", toPropertyPath := JS.str "c.d" }] }

/-- C3: connect() does register on both endpoints and mark the binding
connected, but the handler it passes is this.propertyDidChange — a property
defined nowhere in binding.js, hence undefined — so the section 4.3
change-notification handler (fromPropertyDidChange) is never subscribed:
every registration the call creates has an undefined callback. -/
theorem c3_connect_undefined_handler :
    ((Binding.connect c3World 0).1.observers.map (fun e => (e.path, e.handler, e.root)) =
      [(JS.str "a.b", (none : Option Handler), (none : Option Nat)),
       (JS.str "c.d", (none : Option Handler), (none : Option Nat))])
    ∧ ((Binding.connect c3World 0).1.observers.countP
        (fun e => e.handler == some Handler.fromPropertyDidChange) = 0)
    ∧ (((Binding.connect c3World 0).1.bindings[0]?).map Binding.isConnected = some true) :=
  ⟨rfl, rfl, rfl⟩

/-- The world of the C4 scenario: one binding with neither a from-path nor a
to-path. -/
def c4World : World := { emptyWorld with bindings := [{}] }

/-- C4: connect() on a binding lacking both paths surfaces no error — the
body performs no from/to validation even though its own doc comment
promises an exception — it registers two observer entries on the undefined
paths, and marks the binding connected, so the binding does not remain
unconnected. -/
theorem c4_connect_without_paths_connects :
    (Binding.connect c4World 0 =
      ({ c4World with
          observers := [{ path := JS.undef, handler := none, context := 0, root := none },
                        { path := JS.undef, handler := none, context := 0, root := none }],
          bindings := [{ isConnected := true }] }, 0))
    ∧ (((Binding.connect c4World 0).1.bindings[0]?).map Binding.isConnected = some true) :=
  ⟨rfl, rfl⟩

/-- C6: enqueuing a binding is idempotent (set membership), and a binding
that is in the pending set when a completing top-level flush starts is
applied exactly once during that flush, provided nothing observed during
the flush can re-enqueue it (no observer registration names it as
context). -/
theorem c6_enqueue_once (env : Nat → JS → JS) (fuel : Nat) (w : World) (bId : Nat) (w' : World)
    (hnd : w.changeQueue.Nodup)
    (halt : w.alternateChangeQueue = [])
    (hfl : w.isFlushing = false)
    (hobs : ∀ e, e ∈ w.observers → e.context ≠ bId)
    (hrun : Binding.flushPendingChanges env fuel (enqueueBinding (enqueueBinding w bId) bId)
        = some w') :
    (enqueueBinding (enqueueBinding w bId) bId = enqueueBinding w bId)
    ∧ w'.applyLog.count bId = w.applyLog.count bId + 1 := by
  have hidem : enqueueBinding (enqueueBinding w bId) bId = enqueueBinding w bId := by
    unfold enqueueBinding
    dsimp only
    rw [setAdd_idem]
  refine ⟨hidem, ?_⟩
  rw [hidem] at hrun
  rw [Binding.flushPendingChanges] at hrun
  revert hrun
  split
  next hflush =>
    intro _
    exact absurd hflush (by simp [enqueueBinding, hfl])
  next =>
    split
    next w1 heq =>
      intro hrun
      injection hrun with hh
      have hcount := floop_count_once env bId fuel
        { enqueueBinding w bId with isFlushing := true } w1
        (setAdd_nodup hnd bId)
        (setAdd_self_mem w.changeQueue bId) halt hobs heq
      rw [← hh]
      exact hcount
    next =>
      intro hrun
      exact Option.noConfusion hrun

/-- The world of the C6 witness: one one-way binding writing a number to an
object property, no observers. -/
def c6World : World :=
  { emptyWorld with
      bindings := [{ oneWay := true, toTarget := some (0, "x"), bindingValue := JS.num 1 }],
      objs := [{}] }

/-- The completed flush of the C6 witness scenario. -/
def c6Result : World :=
  (Binding.flushPendingChanges idEnv 2 (enqueueBinding (enqueueBinding c6World 0) 0)).getD emptyWorld

theorem c6_witness :
    c6Result.applyLog.count 0 = c6World.applyLog.count 0 + 1 :=
  (c6_enqueue_once idEnv 2 c6World 0 c6Result (by decide) rfl rfl (by decide) (by decide)).2

/-- C7: a flushPendingChanges call that arrives while the guard flag is set
returns immediately with the world unchanged — nothing is drained or
applied, so no two drain loops overlap — while anything sitting in the
pending set when a completing top-level (non-nested, guard clear) call runs
is applied by that call's own loop. -/
theorem c7_nested_flush_guard (env : Nat → JS → JS) (fuel : Nat) (w : World)
    (h : w.isFlushing = true) :
    (Binding.flushPendingChanges env fuel w = some w)
    ∧ (∀ w2 w2', w2.isFlushing = false →
        Binding.flushPendingChanges env fuel w2 = some w2' →
        ∀ x, x ∈ w2.changeQueue → x ∈ w2'.applyLog) := by
  constructor
  · rw [Binding.flushPendingChanges, if_pos h]
  · intro w2 w2' hf2 hrun x hx
    rw [Binding.flushPendingChanges] at hrun
    rw [if_neg (by simp [hf2])] at hrun
    revert hrun
    split
    next w1 heq =>
      intro hrun
      injection hrun with hh
      rw [← hh]
      exact floop_mem_applied env fuel _ _ heq x hx
    next =>
      intro hrun
      exact Option.noConfusion hrun

/-- The world of the C7 witness: a flush already in progress with a pending
binding. -/
def c7World : World := { emptyWorld with isFlushing := true, changeQueue := [3] }

/-- A non-nested world for the second half of the C7 witness. -/
def c7FlushWorld : World :=
  { emptyWorld with
      bindings := [{ oneWay := true, toTarget := some (0, "y"), bindingValue := JS.num 2 }],
      objs := [{}],
      changeQueue := [0] }

/-- The completed flush of c7FlushWorld. -/
def c7Result : World :=
  (Binding.flushPendingChanges idEnv 2 c7FlushWorld).getD emptyWorld

theorem c7_witness :
    (Binding.flushPendingChanges idEnv 2 c7World = some c7World) ∧ (0 ∈ c7Result.applyLog) := by
  refine ⟨(c7_nested_flush_guard idEnv 2 c7World rfl).1, ?_⟩
  exact (c7_nested_flush_guard idEnv 2 c7World rfl).2 c7FlushWorld c7Result rfl (by decide)
    0 (by decide)

/-- The world of the C8 re-entrancy scenario: applying binding 0 writes to
object 1, whose property is observed for binding 1 (a registration with a
defined callback), so binding 1 is enqueued mid-flush and must be applied
by the same call. -/
def c8World : World :=
  { emptyWorld with
      bindings :=
        [{ oneWay := true, fromTarget := some (0, "p"), toTarget := some (1, "q"),
           bindingValue := JS.num 5 },
         { oneWay := true, fromTarget := some (1, "q"), toTarget := some (2, "r") }],
      objs := [{}, {}, {}],
      observers := [{ path := JS.str "o1.q", handler := some Handler.fromPropertyDidChange,
                      context := 1, root := none }],
      tuples := [((JS.str "o1.q", none), (1, "q"))],
      changeQueue := [0] }

set_option maxHeartbeats 2000000 in
/-- C8: a completing top-level flushPendingChanges call drains to a fixed
point: its pending set is empty on return, the guard flag is clear again,
every binding pending when the call started has been applied, and (the
concrete re-entrancy scenario) a binding enqueued as a side effect of
applying another binding during the flush is applied within the same call
— the applyLog of one call on c8World is [0, 1]. -/
theorem c8_flush_fixed_point (env : Nat → JS → JS) (fuel : Nat) (w w' : World)
    (hfl : w.isFlushing = false)
    (hrun : Binding.flushPendingChanges env fuel w = some w') :
    w'.changeQueue = [] ∧ w'.isFlushing = false
    ∧ (∀ x, x ∈ w.changeQueue → x ∈ w'.applyLog)
    ∧ ((Binding.flushPendingChanges idEnv 3 c8World).map World.applyLog = some [0, 1]) := by
  rw [Binding.flushPendingChanges, if_neg (by simp [hfl])] at hrun
  revert hrun
  split
  next w1 heq =>
    intro hrun
    injection hrun with hh
    have hq1 : w1.changeQueue = [] := floop_queue_empty env fuel _ _ heq
    have hm1 : ∀ x, x ∈ w.changeQueue → x ∈ w1.applyLog := by
      intro x hx
      exact floop_mem_applied env fuel _ _ heq x hx
    refine ⟨?_, ?_, ?_, by decide⟩
    · rw [← hh]
      exact hq1
    · rw [← hh]
    · intro x hx
      rw [← hh]
      exact hm1 x hx
  next =>
    intro hrun
    exact Option.noConfusion hrun

/-- The completed flush of the C8 scenario. -/
def c8Result : World :=
  (Binding.flushPendingChanges idEnv 3 c8World).getD emptyWorld

set_option maxHeartbeats 2000000 in
theorem c8_witness :
    c8Result.changeQueue = [] ∧ 0 ∈ c8Result.applyLog := by
  have h := c8_flush_fixed_point idEnv 3 c8World c8Result rfl (by decide)
  exact ⟨h.1, h.2.2.1 0 (by decide)⟩

theorem listSet_getElem? {α : Type} :
    ∀ (l : List α) (i : Nat) (a b : α), l[i]? = some b → (l.set i a)[i]? = some a := by
  intro l
  induction l with
  | nil =>
    intro i a b h
    simp at h
  | cons x xs ih =>
    intro i a b h
    cases i with
    | zero => simp [List.set]
    | succ n =>
      simp only [List.set]
      simpa using ih n a b (by simpa using h)

theorem updateBinding_map_isConnected {w2 w : World} {bId : Nat} {b : Binding}
    (hbind : w2.bindings = w.bindings) (hb : w.bindings[bId]? = some b) (f : Binding → Binding) :
    ((updateBinding w2 bId f).bindings[bId]?).map Binding.isConnected
      = some (f b).isConnected := by
  unfold updateBinding
  rw [hbind, hb]
  dsimp only
  rw [listSet_getElem? w.bindings bId (f b) b hb]
  rfl

/-- C9: connect and disconnect are idempotent — connect on a connected
binding and disconnect on a disconnected binding return the receiver with
the world unchanged (no further registry traffic) — connect always leaves
the flag true and disconnect always leaves it false, and the connection
flag is changed by no other operation: the change handler, value
application, a whole flush, to() and transform() all preserve every
binding's connection flag. -/
theorem c9_connect_disconnect_idempotent (w : World) (bId : Nat) (b : Binding)
    (env : Nat → JS → JS) (fuel : Nat)
    (hb : w.bindings[bId]? = some b) :
    (b.isConnected = true → Binding.connect w bId = (w, bId))
    ∧ (b.isConnected = false → Binding.disconnect w bId = (w, bId))
    ∧ (((Binding.connect w bId).1.bindings[bId]?).map Binding.isConnected = some true)
    ∧ (((Binding.disconnect w bId).1.bindings[bId]?).map Binding.isConnected = some false)
    ∧ (∀ (key : String) (targetId : Nat),
        World.connFlags (Binding.fromPropertyDidChange w bId key targetId) = World.connFlags w)
    ∧ (World.connFlags (Binding.applyBindingValue env w bId) = World.connFlags w)
    ∧ (∀ w', Binding.flushPendingChanges env fuel w = some w' →
        World.connFlags w' = World.connFlags w)
    ∧ (∀ (p : JS) (r : Option Nat), (Binding.to b p r).isConnected = b.isConnected)
    ∧ (∀ f, ((Binding.transformMeth w b f).2).isConnected = b.isConnected) := by
  refine ⟨?_, ?_, ?_, ?_, ?_, ?_, ?_, ?_, ?_⟩
  · intro hc
    unfold Binding.connect
    rw [hb]
    dsimp only
    rw [if_pos hc]
  · intro hc
    unfold Binding.disconnect
    rw [hb]
    dsimp only
    rw [if_pos (by simp [hc])]
  · unfold Binding.connect
    rw [hb]
    dsimp only
    cases hc : b.isConnected with
    | true => simp [hb, hc]
    | false =>
      rw [if_neg (by simp)]
      exact updateBinding_map_isConnected (by split <;> rfl) hb _
  · unfold Binding.disconnect
    rw [hb]
    dsimp only
    cases hc : b.isConnected with
    | false => simp [hb, hc]
    | true =>
      rw [if_neg (by simp)]
      exact updateBinding_map_isConnected (by split <;> rfl) hb _
  · intro key targetId
    exact connFlags_of_bconfigs (fpdc_coreFrame w bId key targetId).2.2.2.2.2.2
  · exact (apply_applyFrame env w bId).2.2.2.2
  · intro w' hrun
    rw [Binding.flushPendingChanges] at hrun
    revert hrun
    split
    next =>
      intro hrun
      injection hrun with hh
      rw [← hh]
    next =>
      split
      next w1 heq =>
        intro hrun
        injection hrun with hh
        have h1 := floop_connFlags env fuel _ _ heq
        rw [← hh]
        exact h1
      next =>
        intro hrun
        exact Option.noConfusion hrun
  · intro p r
    unfold Binding.to
    cases hc : b.isCanonical <;> simp [hc, Binding.begetRaw]
  · intro f
    unfold Binding.transformMeth
    dsimp only
    have hneg : ∀ (tt : Option Nat) (bb : Binding), ¬(tt.isSome ∧ tt = parentTransformRead bb) := by
      rintro tt bb ⟨h1, h2⟩
      rw [h2] at h1
      simp [parentTransformRead] at h1
    rw [if_neg (hneg _ _)]
    dsimp only
    cases hc : b.isCanonical with
    | true =>
      rw [if_pos rfl]
      cases (Binding.begetRaw b).transforms <;> rfl
    | false =>
      rw [if_neg (by simp)]
      cases b.transforms <;> rfl

/-- The world of the C9 witness with a connected binding. -/
def c9ConnWorld : World := { emptyWorld with bindings := [{ isConnected := true }] }

/-- The world of the C9 witness with a disconnected binding. -/
def c9DiscWorld : World := { emptyWorld with bindings := [{}] }

theorem c9_witness :
    (Binding.connect c9ConnWorld 0 = (c9ConnWorld, 0))
    ∧ (Binding.disconnect c9DiscWorld 0 = (c9DiscWorld, 0))
    ∧ (World.connFlags (Binding.applyBindingValue idEnv c9ConnWorld 0)
        = World.connFlags c9ConnWorld) := by
  have h1 := c9_connect_disconnect_idempotent c9ConnWorld 0 { isConnected := true } idEnv 1 rfl
  have h2 := c9_connect_disconnect_idempotent c9DiscWorld 0 {} idEnv 1 rfl
  exact ⟨h1.1 rfl, h2.2.1 rfl, h1.2.2.2.2.2.1⟩

/-- C10: single() with an absent placeholder installs the single-value
transform with SC.MULTIPLE_PLACEHOLDER as placeholder (shown on the
canonical template, which is derived first), and that transform maps the
empty sequence to null, a one-element sequence to its element, a sequence
of more than one element to the multiple-values placeholder, and passes
every non-sequence value through unchanged. -/
theorem c10_single_transform (env : Nat → JS → JS) :
    (Binding.single emptyWorld SCBinding JS.undef JS.undef =
       Except.ok ({ emptyWorld with tarrays := [[TransformFn.single SC.MULTIPLE_PLACEHOLDER]] },
                  { SCBinding with isCanonical := false, transforms := some 0 }))
    ∧ (applyTransform env (TransformFn.single SC.MULTIPLE_PLACEHOLDER) (JS.arr []) = JS.null)
    ∧ (∀ x : JS, applyTransform env (TransformFn.single SC.MULTIPLE_PLACEHOLDER) (JS.arr [x]) = x)
    ∧ (∀ xs : List JS, 1 < xs.length →
        applyTransform env (TransformFn.single SC.MULTIPLE_PLACEHOLDER) (JS.arr xs)
          = SC.MULTIPLE_PLACEHOLDER)
    ∧ (∀ v : JS, SC.isArray v = false →
        applyTransform env (TransformFn.single SC.MULTIPLE_PLACEHOLDER) v = v) := by
  refine ⟨rfl, rfl, ?_, ?_, ?_⟩
  · intro x
    rfl
  · intro xs hlen
    simp [applyTransform, hlen]
  · intro v hv
    cases v <;> simp_all [applyTransform, SC.isArray]

theorem c10_witness :
    (applyTransform idEnv (TransformFn.single SC.MULTIPLE_PLACEHOLDER)
        (JS.arr [JS.num 1, JS.num 2]) = SC.MULTIPLE_PLACEHOLDER)
    ∧ (applyTransform idEnv (TransformFn.single SC.MULTIPLE_PLACEHOLDER) (JS.num 5)
        = JS.num 5) :=
  ⟨(c10_single_transform idEnv).2.2.2.1 [JS.num 1, JS.num 2] (by decide),
   (c10_single_transform idEnv).2.2.2.2 (JS.num 5) (by decide)⟩

/-- The world of the C5 witness: a two-way binding with both targets
resolved, a single() pipeline and suppress-errors set. -/
def c5World : World :=
  { emptyWorld with
      bindings := [{ fromTarget := some (0, "p"), toTarget := some (0, "q"),
                     bindingValue := JS.arr [JS.num 7], transforms := some 0, noError := true }],
      tarrays := [[TransformFn.single SC.MULTIPLE_PLACEHOLDER]],
      objs := [{}] }

/-- The binding of the C5 witness after target resolution. -/
def c5Binding : Binding :=
  { fromTarget := some (0, "p"), toTarget := some (0, "q"),
    bindingValue := JS.arr [JS.num 7], transforms := some 0, noError := true }

theorem c5_witness :
    (Binding.applyBindingValue idEnv c5World 0).setCalls =
      [(0, "p", JS.arr [JS.num 7]), (0, "q", JS.num 7)] := by
  have h := c5_applyBindingValue_order idEnv c5World 0 c5Binding (by decide)
  simpa using h
